import Mathlib

/-!
Verification of the gcore-usage report pipeline against its specification.

The repository contains two parallel implementations of the pipeline:
`apps/core/*` (DataProcessor, GcoreClient, TokenManager) and the standalone
`main.py` module.  Both are embedded here.  Python values occurring in report
payloads are modelled by the inductive type `Val`; Python dictionaries are
modelled as association lists with string keys and unique-key insertion
semantics (`Row`); Python floats are modelled as exact rationals (IEEE
rounding, `inf`/`nan` and digit-group underscores are outside the model).
-/

/-- A Python value as it occurs in report payloads: `None`, `bool`, `int`,
`float` (modelled exactly as a rational), `str`, `list`, or a string-keyed
`dict`. -/
inductive Val where
  | none : Val
  | bool (b : Bool) : Val
  | int (n : Int) : Val
  | float (q : Rat) : Val
  | str (s : String) : Val
  | list (xs : List Val) : Val
  | dict (kvs : List (String × Val)) : Val

/-- A Python dict with string keys, as an association list in insertion
order.  Real dicts have unique keys; operations below preserve that. -/
abbrev Row := List (String × Val)

/-- Python truthiness (`bool(v)`): `None`, `False`, numeric zero, the empty
string and empty containers are falsy. -/
def pyTruthy : Val → Bool
  | .none => false
  | .bool b => b
  | .int n => n != 0
  | .float q => q != 0
  | .str s => !s.isEmpty
  | .list xs => !xs.isEmpty
  | .dict kvs => !kvs.isEmpty

/-- Rendering of a model float.  (Python's `repr` of a float is
approximated; no claim below depends on the exact digits.) -/
def ratRepr (q : Rat) : String :=
  if q.den = 1 then toString q.num ++ ".0"
  else toString q.num ++ "/" ++ toString q.den

mutual
/-- Python `repr(v)` for model values (strings are quoted). -/
def pyRepr : Val → String
  | .none => "None"
  | .bool true => "True"
  | .bool false => "False"
  | .int n => toString n
  | .float q => ratRepr q
  | .str s => "'" ++ s ++ "'"
  | .list xs => "[" ++ String.intercalate ", " (pyReprList xs) ++ "]"
  | .dict kvs => "\x7b" ++ String.intercalate ", " (pyReprDict kvs) ++ "\x7d"

/-- `repr` of each element of a list. -/
def pyReprList : List Val → List String
  | [] => []
  | v :: vs => pyRepr v :: pyReprList vs

/-- `repr` of each `key: value` entry of a dict. -/
def pyReprDict : List (String × Val) → List String
  | [] => []
  | (k, v) :: kvs => ("'" ++ k ++ "': " ++ pyRepr v) :: pyReprDict kvs
end

/-- Python `str(v)`: like `repr` except that a top-level string is returned
unquoted. -/
def pyStr : Val → String
  | .str s => s
  | v => pyRepr v

/-- `pat` is a prefix of `s` (on character lists). -/
def charsStartWith : List Char → List Char → Bool
  | [], _ => true
  | _ :: _, [] => false
  | a :: as, b :: bs => a == b && charsStartWith as bs

/-- `pat` occurs as a contiguous substring of `s` (on character lists). -/
def charsContain (pat : List Char) : List Char → Bool
  | [] => pat.isEmpty
  | s@(_ :: rest) => charsStartWith pat s || charsContain pat rest

/-- Python `s.lower()` (ASCII case mapping, matching the repository's
status strings and column names). -/
def strLower (s : String) : String := ⟨s.data.map Char.toLower⟩

/-- Python `s.upper()` (ASCII case mapping). -/
def strUpper (s : String) : String := ⟨s.data.map Char.toUpper⟩

/-- Python `s.strip()`: remove leading and trailing whitespace. -/
def strTrim (s : String) : String :=
  ⟨((s.data.dropWhile Char.isWhitespace).reverse.dropWhile Char.isWhitespace).reverse⟩

/-- Python `pat in s` substring test. -/
def strContains (s pat : String) : Bool :=
  charsContain pat.toList s.toList

/-- Python `d.get(key)`: first (only) binding of `key`. -/
def rowGet : Row → String → Option Val
  | [], _ => Option.none
  | (k, v) :: r, key => if k = key then some v else rowGet r key

/-- Python `d.get(key, default)`. -/
def rowGetD (r : Row) (key : String) (dflt : Val) : Val :=
  (rowGet r key).getD dflt

/-- The keys of a dict, in insertion order. -/
def rowKeys (r : Row) : List String := r.map Prod.fst

/-- Python `d[k] = v`: replace the value at an existing key in place,
otherwise append the new binding. -/
def rowInsert (r : Row) (k : String) (v : Val) : Row :=
  if r.any (fun kv => kv.1 == k) then
    r.map (fun kv => if kv.1 == k then (k, v) else kv)
  else r ++ [(k, v)]

/-- Read an optional leading sign. -/
def readSign : List Char → Int × List Char
  | '+' :: r => (1, r)
  | '-' :: r => (-1, r)
  | r => (1, r)

/-- Value of a digit string. -/
def digitsToNat (ds : List Char) : Nat :=
  ds.foldl (fun a c => a * 10 + (c.toNat - 48)) 0

/-- The rational denoted by sign, integer digits, fraction digits and a
decimal exponent. -/
def ratOfParts (sgn : Int) (ip fp : List Char) (ex : Int) : Rat :=
  ((sgn * (digitsToNat (ip ++ fp) : Int) : Int) : Rat)
    / ((10 : Rat) ^ fp.length) * ((10 : Rat) ^ ex)

/-- Python `float(s)` on a string: optional sign, decimal digits with an
optional fraction and optional exponent; anything else raises (`Option.none`).
(`inf`/`nan` and underscores in digit groups are outside the model; both
sides of every claim treat them alike.) -/
def pyFloatOfString (s : String) : Option Rat :=
  let cs := (strTrim s).data
  let (sgn, r1) := readSign cs
  let ip := r1.takeWhile Char.isDigit
  let r2 := r1.dropWhile Char.isDigit
  let (fp, r3) :=
    match r2 with
    | '.' :: rest => (rest.takeWhile Char.isDigit, rest.dropWhile Char.isDigit)
    | _ => ([], r2)
  if ip.isEmpty && fp.isEmpty then Option.none
  else
    match r3 with
    | [] => some (ratOfParts sgn ip fp 0)
    | e :: rest =>
      if e == 'e' || e == 'E' then
        let (esgn, er) := readSign rest
        let ed := er.takeWhile Char.isDigit
        let er2 := er.dropWhile Char.isDigit
        if ed.isEmpty || !er2.isEmpty then Option.none
        else some (ratOfParts sgn ip fp (esgn * (digitsToNat ed : Int)))
      else Option.none

/-- Python `float(v)` on a value: numbers and booleans convert, strings are
parsed, everything else raises `TypeError` (`Option.none`). -/
def pyFloat : Val → Option Rat
  | .int n => some (n : Rat)
  | .float q => some q
  | .bool b => some (if b then 1 else 0)
  | .str s => pyFloatOfString s
  | _ => Option.none

/-! ## DataProcessor (`apps/core/data_processor.py`) -/

namespace DataProcessor

/-- `isinstance(v, dict)`. -/
def isDictVal : Val → Bool
  | .dict _ => true
  | _ => false

/-- `isinstance(v, list)`. -/
def isListVal : Val → Bool
  | .list _ => true
  | _ => false

/-- `all(isinstance(x, dict) for x in xs)`. -/
def allDicts (xs : List Val) : Bool := xs.all isDictVal

/-- Extract the dict elements of a list (used only under an `allDicts`
guard, where it is the identity reading of the list as rows). -/
def toRows (xs : List Val) : List Row :=
  xs.filterMap (fun v => match v with | .dict kvs => some kvs | _ => Option.none)

/-- Python `dict(zip(headers, row))`.  Dict keys are modelled as strings,
so header values are rendered with `str`; the claims below only ever use
string headers, for which this is exact. -/
def zipDict (headers cells : List Val) : Row :=
  (headers.zip cells).foldl (fun r hv => rowInsert r (pyStr hv.1) hv.2) []

/-- `DataProcessor.normalize_rows` (data_processor.py lines 15-56): the
four-branch shape dispatch.  A `headers`/`rows` tabular input keeps only
list rows whose length equals the header count. -/
def normalize_rows (raw : Val) : List Row :=
  match raw with
  | .list xs => if allDicts xs then toRows xs else []
  | .dict d =>
    let dataBranch : Option (List Row) :=
      match rowGet d "data" with
      | some (.list ds) => if allDicts ds then some (toRows ds) else Option.none
      | _ => Option.none
    match dataBranch with
    | some rs => rs
    | Option.none =>
      match rowGet d "headers", rowGet d "rows" with
      | some (.list headers), some (.list rowsData) =>
        rowsData.filterMap (fun r =>
          match r with
          | .list cells =>
            if cells.length = headers.length then some (zipDict headers cells)
            else Option.none
          | _ => Option.none)
      | _, _ =>
        d.foldl (fun rows kv =>
          match kv.2 with
          | .list items =>
            if allDicts items then rows ++ toRows items
            else if items.all isListVal then
              rows ++ items.filterMap (fun r =>
                match r with
                | .list cells =>
                  some (cells.enum.map (fun iv => ("col_" ++ toString iv.1, iv.2)))
                | _ => Option.none)
            else rows
          | _ => rows) []
  | _ => []

/-- The column-detection test for the client-id column:
`"client" in key.lower() and "id" in key.lower()`. -/
def isClientKey (k : String) : Bool :=
  strContains (strLower k) "client" && strContains (strLower k) "id"

/-- The column-detection test for the metric column:
`"metric" in key.lower() and "value" in key.lower()`. -/
def isMetricKey (k : String) : Bool :=
  strContains (strLower k) "metric" && strContains (strLower k) "value"

/-- One sample row of the detection scan: each key overwrites the detected
column when it matches (data_processor.py lines 72-76). -/
def scanSample (acc : Option String × Option String) (keys : List String) :
    Option String × Option String :=
  keys.foldl (fun acc k =>
    (if isClientKey k then some k else acc.1,
     if isMetricKey k then some k else acc.2)) acc

/-- Truthiness of the Python `client_key` / `metric_key` variables
(`None` and the empty string are falsy). -/
def truthyKey : Option String → Bool
  | Option.none => false
  | some s => !s.isEmpty

/-- The detection scan over the first sample rows, stopping as soon as
both columns are found (lines 69-78). -/
def findKeysAux : Option String × Option String → List Row →
    Option String × Option String
  | acc, [] => acc
  | acc, r :: rs =>
    let acc := scanSample acc (rowKeys r)
    if truthyKey acc.1 && truthyKey acc.2 then acc else findKeysAux acc rs

/-- Column detection over `rows[:5]`. -/
def findFilterKeys (rows : List Row) : Option String × Option String :=
  findKeysAux (Option.none, Option.none) (rows.take 5)

/-- The per-row loop of `filter_by_client_and_metric` (lines 93-111):
keep a row when the trimmed client value equals the trimmed target and the
metric value is truthy with a float conversion that fails or is non-zero.
`float(metric_value) if metric_value else 0` maps falsy metric values to
zero before the test. -/
def filterLoop (ck mk target : String) : List Row → List Row
  | [] => []
  | r :: rs =>
    let clientId := strTrim (pyStr (rowGetD r ck (.str "")))
    if clientId = strTrim target then
      let mv := rowGetD r mk (.int 0)
      match (if pyTruthy mv then pyFloat mv else some 0) with
      | some q => if q ≠ 0 then r :: filterLoop ck mk target rs
                  else filterLoop ck mk target rs
      | Option.none => r :: filterLoop ck mk target rs
    else filterLoop ck mk target rs

/-- `DataProcessor.filter_by_client_and_metric` (lines 58-116). -/
def filter_by_client_and_metric (rows : List Row) (target : String) : List Row :=
  if rows.isEmpty then []
  else
    let keys := findFilterKeys rows
    if !truthyKey keys.1 || !truthyKey keys.2 then rows
    else filterLoop (keys.1.getD "") (keys.2.getD "") target rows

/-- `isinstance(value, (int, float)) and value == 0`; Python booleans are
ints, so `False` passes the test. -/
def isZeroNumeric : Val → Bool
  | .int n => n == 0
  | .float q => q == 0
  | .bool b => !b
  | _ => false

/-- `DataProcessor.remove_zero_numeric_fields` (lines 118-126): drop every
field whose value is a numeric zero. -/
def remove_zero_numeric_fields (row : Row) : Row :=
  row.filter (fun kv => !isZeroNumeric kv.2)

/-- `v is not None and v != ""`: only `None` and the empty string are
removed (Python `!=` across types keeps zeros). -/
def isNullLike : Val → Bool
  | .none => true
  | .str s => s.isEmpty
  | _ => false

/-- `DataProcessor.strip_nulls` (lines 128-131). -/
def strip_nulls (row : Row) : Row :=
  row.filter (fun kv => !isNullLike kv.2)

end DataProcessor

/-- Strict code-point lexicographic comparison of character lists (the
order Python uses to sort strings). -/
def charsLtB : List Char → List Char → Bool
  | [], [] => false
  | [], _ :: _ => true
  | _ :: _, [] => false
  | a :: as, b :: bs => if a < b then true else if a = b then charsLtB as bs else false

/-- Strict lexicographic order on strings, as a boolean. -/
def strLtB (a b : String) : Bool := charsLtB a.data b.data

/-- Lexicographic `≤` on strings, as a boolean. -/
def strLeB (a b : String) : Bool := !strLtB b a

/-- Insert a string into a lexicographically sorted list. -/
def insertSorted (a : String) : List String → List String
  | [] => [a]
  | b :: bs => if strLeB a b then a :: b :: bs else b :: insertSorted a bs

/-- Ascending lexicographic sort (Python `sorted` on strings). -/
def sortStrings : List String → List String
  | [] => []
  | a :: as => insertSorted a (sortStrings as)

namespace DataProcessor

/-- A CSV field needs quoting when it contains the delimiter, the quote
character, or a line-terminator character (`csv.QUOTE_MINIMAL`). -/
def csvNeedsQuote (s : String) : Bool :=
  s.toList.any (fun c => c == ',' || c == '"' || c == '\r' || c == '\n')

/-- Double every quote character (the `replace` step of minimal quoting). -/
def csvEscapeQuotes (s : String) : String :=
  ⟨s.data.flatMap (fun c => if c = '"' then ['"', '"'] else [c])⟩

/-- Minimal quoting of one CSV field: wrap in quotes and double every
embedded quote, only when needed. -/
def csvQuoteField (s : String) : String :=
  if csvNeedsQuote s then "\"" ++ csvEscapeQuotes s ++ "\"" else s

/-- The string the csv writer emits for one cell value: `None` becomes the
empty string, strings are taken as-is, other values are rendered with
`str`. -/
def csvCellString : Val → String
  | .none => ""
  | .str s => s
  | v => pyStr v

/-- `rowdict.get(key, restval)` with `restval = ""`, rendered: a missing
field is an empty cell. -/
def csvCell (r : Row) (f : String) : String :=
  match rowGet r f with
  | some v => csvCellString v
  | Option.none => ""

/-- One emitted CSV line: quoted cells joined by commas, terminated by
`\r\n` (the csv module's default line terminator). -/
def csvLine (cells : List String) : String :=
  String.intercalate "," (cells.map csvQuoteField) ++ "\r\n"

/-- `sorted(all_keys)`: the union of the field names of all rows, as a
sorted duplicate-free list (a Python set comprehension followed by
`sorted`). -/
def csvFieldnames (rows : List Row) : List String :=
  sortStrings ((rows.flatMap rowKeys).dedup)

/-- `DataProcessor.to_csv` (data_processor.py lines 133-155): empty input
gives the empty string; otherwise a header line over the sorted key union
followed by one line per row. -/
def to_csv (rows : List Row) : String :=
  if rows.isEmpty then ""
  else
    csvLine (csvFieldnames rows) ++
      String.join (rows.map (fun r => csvLine ((csvFieldnames rows).map (csvCell r))))

end DataProcessor

/-! ## GcoreClient (`apps/core/gcore_client.py`) -/

namespace GcoreClient

/-- One upstream feature object, with the three product-name fields the
client probes and an optional `id` value (which need not be an int).
Product-name fields are modelled as optional strings. -/
structure Feature where
  product_name_en : Option String
  productNameEn : Option String
  product : Option String

/-- The `id` value of a feature, when present. -/
structure FeatureRec where
  toFeature : Feature
  id : Option Val

/-- Python `a or b` on optional strings: the first truthy (non-`None`,
non-empty) operand. -/
def pyOrStr (a b : Option String) : Option String :=
  match a with
  | some s => if s.isEmpty then b else some s
  | Option.none => b

/-- `(f.get("product_name_en") or f.get("productNameEn") or f.get("product")
or "").strip().upper()` (gcore_client.py lines 56-58). -/
def effProductName (f : FeatureRec) : String :=
  ((pyOrStr (pyOrStr f.toFeature.product_name_en f.toFeature.productNameEn)
      f.toFeature.product).getD "") |> strTrim |> strUpper

/-- `isinstance(fid, int)`: Python booleans are ints. -/
def pyIsInt : Option Val → Bool
  | some (.int _) => true
  | some (.bool _) => true
  | _ => false

/-- Truthiness of `f.get("id")` (the fallback filter). -/
def truthyId : Option Val → Bool
  | some v => pyTruthy v
  | Option.none => false

/-- `GcoreClient.get_features_for_product` (gcore_client.py lines 46-72):
collect ids of features whose effective product name matches the upper-cased
request and whose id is an int; when none match, fall back to the truthy ids
of the first 10 features. -/
def get_features_for_product (productName : String) (features : List FeatureRec) :
    List Val :=
  let target := strUpper productName
  let ids := features.filterMap (fun f =>
    if effProductName f = target && pyIsInt f.id then f.id else Option.none)
  if ids.isEmpty then
    (features.take 10).filterMap (fun f =>
      if truthyId f.id then f.id else Option.none)
  else ids

/-- Outcome of a finite run of a polling loop. -/
inductive PollOutcome where
  | completed (status : String)
  | reportFailed (httpCode : Nat)
  | timedOut (httpCode : Nat) (lastStatus : String)
  deriving DecidableEq, Repr

/-- `GcoreClient.wait_for_completion` (gcore_client.py lines 166-202), run
over a finite trace of `(status string, elapsed seconds at the poll)` pairs:
`"completed"` returns, `"failed"` raises 502, `"inprogress"`/`"pending"`
check the timeout and continue, and any other status continues *without*
a timeout check.  An exhausted trace (`Option.none`) means the loop is still
polling. -/
def waitForCompletionRun (timeout : Rat) : List (String × Rat) → Option PollOutcome
  | [] => Option.none
  | (s, t) :: rest =>
    let cs := strLower s
    if cs = "completed" then some (.completed "completed")
    else if cs = "failed" then some (.reportFailed 502)
    else if cs = "inprogress" || cs = "pending" then
      -- the 504 message in this implementation does not carry a status string
      if t > timeout then some (.timedOut 504 "")
      else waitForCompletionRun timeout rest
    else waitForCompletionRun timeout rest

end GcoreClient

/-! ## Standalone pipeline (`main.py`) -/

namespace MainApp

open DataProcessor (isDictVal isListVal allDicts toRows)

/-- Zip a row against string headers, keeping only positions below the
header count, via Python dict assignment (main.py lines 122-126; the dict
comprehension at line 143 builds the same dict). -/
def zipRow (headers : List String) (cells : List Val) : Row :=
  (headers.zip cells).foldl (fun r hv => rowInsert r hv.1 hv.2) []

/-- `_normalize_rows` (main.py lines 92-145): like the DataProcessor
version, except that in the tabular branch headers are stringified, list
rows of *any* length are zipped (short rows give partial mappings, long
rows are truncated) and dict rows are appended as-is. -/
def normalize_rows (raw : Val) : List Row :=
  match raw with
  | .list xs => if allDicts xs then toRows xs else []
  | .dict d =>
    let dataBranch : Option (List Row) :=
      match rowGet d "data" with
      | some (.list ds) => if allDicts ds then some (toRows ds) else Option.none
      | _ => Option.none
    match dataBranch with
    | some rs => rs
    | Option.none =>
      match rowGet d "headers", rowGet d "rows" with
      | some (.list headersRaw), some (.list rowsData) =>
        let headers := headersRaw.map pyStr
        rowsData.filterMap (fun r =>
          match r with
          | .list cells => some (zipRow headers cells)
          | .dict kvs => some kvs
          | _ => Option.none)
      | _, _ =>
        d.foldl (fun rows kv =>
          match kv.2 with
          | .list items =>
            if allDicts items then rows ++ toRows items
            else
              match rowGet d "headers" with
              | some (.list headersRaw) =>
                let headers := headersRaw.map pyStr
                rows ++ items.filterMap (fun r =>
                  match r with
                  | .list cells => some (zipRow headers cells)
                  | _ => Option.none)
              | _ => rows
          | _ => rows) []
  | _ => []

/-- The success synonym set of `_wait_until_ready` (main.py line 419). -/
def successStatuses : List String :=
  ["ready", "finished", "done", "success", "succeeded", "available",
   "completed", "complete"]

/-- The failure synonym set of `_wait_until_ready` (main.py line 422). -/
def failureStatuses : List String := ["failed", "error"]

/-- The three-way classification a poll iteration applies to the lowered
status string. -/
inductive StatusClass where
  | completed
  | failed
  | nonTerminal
  deriving DecidableEq, Repr

/-- Classify one lowered status string the way `_wait_until_ready`
branches on it. -/
def classifyStatus (s : String) : StatusClass :=
  let st := strLower s
  if st ∈ successStatuses then .completed
  else if st ∈ failureStatuses then .failed
  else .nonTerminal

/-- `_wait_until_ready` (main.py lines 389-433), run over a finite trace of
`(status string, elapsed seconds at the poll)` pairs.  The status string is
the extracted `js.get("status") or js.get("state") or ""` value; `last`
tracks the last non-empty lowered status (initially `"unknown"`).  Success
synonyms return the status, failure synonyms raise 502, and every other
status hits the deadline check (`elapsed ≥ timeout` raises 504 carrying the
last status) before sleeping. -/
def waitUntilReadyRun (timeout : Rat) (last : String) :
    List (String × Rat) → Option GcoreClient.PollOutcome
  | [] => Option.none
  | (s, t) :: rest =>
    let st := strLower s
    let last := if st.isEmpty then last else st
    match classifyStatus s with
    | .completed => some (.completed st)
    | .failed => some (.reportFailed 502)
    | .nonTerminal =>
      if t ≥ timeout then some (.timedOut 504 last)
      else waitUntilReadyRun timeout last rest

end MainApp

/-! ## TokenManager (`apps/core/auth.py`) -/

namespace Auth

/-- The token cache: `{"token": ..., "expires_at": ...}`. -/
structure TokenCache where
  token : Option String
  expires_at : Rat
  deriving DecidableEq, Repr

/-- The fields of the upstream auth response that `get_token` reads. -/
structure AuthResp where
  access : Option String
  access_token : Option String
  expires_in : Option Rat
  deriving DecidableEq, Repr

/-- Truthiness of the cached token / extracted access token. -/
def truthyTok : Option String → Bool
  | Option.none => false
  | some s => !s.isEmpty

/-- `TokenManager.get_token` (auth.py lines 23-69) as a pure transition:
given the cache, the current time, whether credentials are configured and
the auth response the refresh call would return, produce the HTTP error
code or the returned token together with the new cache.  A cached token is
served when `expires_at > now + 60`; otherwise a fresh token is cached with
`expires_at = now + expires_in` (defaulting to the configured cache
duration). -/
def get_token (cacheDuration : Rat) (st : TokenCache) (now : Rat)
    (credsOk : Bool) (resp : AuthResp) : Except Nat (String × TokenCache) :=
  if truthyTok st.token && st.expires_at > now + 60 then
    .ok (st.token.getD "", st)
  else if !credsOk then .error 500
  else
    match pyOrTok resp.access resp.access_token with
    | Option.none => .error 502
    | some tok =>
      let expiresIn := resp.expires_in.getD cacheDuration
      .ok (tok, ⟨some tok, now + expiresIn⟩)
where
  /-- `auth_response.get("access") or auth_response.get("access_token")`,
  then the falsy check `if not access_token`. -/
  pyOrTok (a b : Option String) : Option String :=
    match a with
    | some s => if s.isEmpty then pyNonEmpty b else some s
    | Option.none => pyNonEmpty b
  /-- Drop a falsy (empty) token. -/
  pyNonEmpty : Option String → Option String
    | some s => if s.isEmpty then Option.none else some s
    | Option.none => Option.none

end Auth

/-! ## Helper lemmas -/

theorem scanSample_fst_of_none (keys : List String)
    (h : ∀ k ∈ keys, DataProcessor.isClientKey k = false)
    (acc : Option String × Option String) :
    (DataProcessor.scanSample acc keys).1 = acc.1 := by
  induction keys generalizing acc with
  | nil => rfl
  | cons k ks ih =>
    have hk := h k (List.mem_cons_self k ks)
    have hks : ∀ x ∈ ks, DataProcessor.isClientKey x = false :=
      fun x hx => h x (List.mem_cons_of_mem _ hx)
    simp only [DataProcessor.scanSample, List.foldl_cons] at *
    rw [ih hks, hk]
    simp

theorem scanSample_snd_of_none (keys : List String)
    (h : ∀ k ∈ keys, DataProcessor.isMetricKey k = false)
    (acc : Option String × Option String) :
    (DataProcessor.scanSample acc keys).2 = acc.2 := by
  induction keys generalizing acc with
  | nil => rfl
  | cons k ks ih =>
    have hk := h k (List.mem_cons_self k ks)
    have hks : ∀ x ∈ ks, DataProcessor.isMetricKey x = false :=
      fun x hx => h x (List.mem_cons_of_mem _ hx)
    simp only [DataProcessor.scanSample, List.foldl_cons] at *
    rw [ih hks, hk]
    simp

theorem findKeysAux_fst_none (l : List Row)
    (h : ∀ r ∈ l, ∀ k ∈ rowKeys r, DataProcessor.isClientKey k = false)
    (acc : Option String × Option String) (hacc : acc.1 = Option.none) :
    (DataProcessor.findKeysAux acc l).1 = Option.none := by
  induction l generalizing acc with
  | nil => simpa [DataProcessor.findKeysAux] using hacc
  | cons r rs ih =>
    have h1 : (DataProcessor.scanSample acc (rowKeys r)).1 = Option.none :=
      (scanSample_fst_of_none _ (h r (List.mem_cons_self r rs)) acc).trans hacc
    have hrs : ∀ x ∈ rs, ∀ k ∈ rowKeys x, DataProcessor.isClientKey k = false :=
      fun x hx => h x (List.mem_cons_of_mem _ hx)
    simp only [DataProcessor.findKeysAux, h1, DataProcessor.truthyKey, Bool.false_and,
      if_neg (Bool.false_ne_true)]
    exact ih hrs _ h1

theorem findKeysAux_snd_none (l : List Row)
    (h : ∀ r ∈ l, ∀ k ∈ rowKeys r, DataProcessor.isMetricKey k = false)
    (acc : Option String × Option String) (hacc : acc.2 = Option.none) :
    (DataProcessor.findKeysAux acc l).2 = Option.none := by
  induction l generalizing acc with
  | nil => simpa [DataProcessor.findKeysAux] using hacc
  | cons r rs ih =>
    have h2 : (DataProcessor.scanSample acc (rowKeys r)).2 = Option.none :=
      (scanSample_snd_of_none _ (h r (List.mem_cons_self r rs)) acc).trans hacc
    have hrs : ∀ x ∈ rs, ∀ k ∈ rowKeys x, DataProcessor.isMetricKey k = false :=
      fun x hx => h x (List.mem_cons_of_mem _ hx)
    simp only [DataProcessor.findKeysAux, h2, DataProcessor.truthyKey, Bool.and_false,
      if_neg (Bool.false_ne_true)]
    exact ih hrs _ h2

/-! ## Claim theorems -/

/-- C9: on a record sequence in which no field name of the first 5 records
qualifies as the client-id column (lowercased form containing both
"client" and "id"), or none qualifies as the metric column (lowercased
form containing both "metric" and "value"), the row filter returns its
input unchanged. -/
theorem c9_filter_noop_when_undetected (rows : List Row) (target : String)
    (h : (∀ r ∈ rows.take 5, ∀ k ∈ rowKeys r, DataProcessor.isClientKey k = false)
       ∨ (∀ r ∈ rows.take 5, ∀ k ∈ rowKeys r, DataProcessor.isMetricKey k = false)) :
    DataProcessor.filter_by_client_and_metric rows target = rows := by
  cases rows with
  | nil => rfl
  | cons r rs =>
    have hcond :
        (!DataProcessor.truthyKey (DataProcessor.findFilterKeys (r :: rs)).1
          || !DataProcessor.truthyKey (DataProcessor.findFilterKeys (r :: rs)).2) = true := by
      cases h with
      | inl h =>
        have := findKeysAux_fst_none _ h (Option.none, Option.none) rfl
        simp only [DataProcessor.findFilterKeys, this, DataProcessor.truthyKey,
          Bool.not_false, Bool.true_or]
      | inr h =>
        have := findKeysAux_snd_none _ h (Option.none, Option.none) rfl
        simp only [DataProcessor.findFilterKeys, this, DataProcessor.truthyKey,
          Bool.not_false, Bool.or_true]
    simp only [DataProcessor.filter_by_client_and_metric, List.isEmpty_cons,
      Bool.false_eq_true, if_false, hcond, if_true]

/-- C9 witness: a sequence with no detectable metric column passes through
the filter unchanged. -/
theorem c9_filter_noop_witness :
    DataProcessor.filter_by_client_and_metric [[("client_id", Val.int 7)]] "7"
      = [[("client_id", Val.int 7)]] :=
  c9_filter_noop_when_undetected [[("client_id", Val.int 7)]] "7"
    (Or.inr (by decide))

/-- C8: the record cleaner `remove_zero_numeric_fields ∘ strip_nulls` is
idempotent: applying it twice to any record gives the same record as
applying it once. -/
theorem c8_cleaner_idempotent (row : Row) :
    DataProcessor.remove_zero_numeric_fields (DataProcessor.strip_nulls
      (DataProcessor.remove_zero_numeric_fields (DataProcessor.strip_nulls row)))
    = DataProcessor.remove_zero_numeric_fields (DataProcessor.strip_nulls row) := by
  simp only [DataProcessor.remove_zero_numeric_fields, DataProcessor.strip_nulls,
    List.filter_filter]
  exact List.filter_congr fun kv _ => by
    cases h1 : DataProcessor.isZeroNumeric kv.2 <;>
      cases h2 : DataProcessor.isNullLike kv.2 <;> simp [h1, h2]

/-- C10: `remove_zero_numeric_fields` drops every field whose value is the
Boolean `False` (Python booleans are ints and `False == 0`), while a field
whose value is `True` is kept. -/
theorem c10_remove_zero_drops_false (row : Row) (k : String) :
    (k, Val.bool false) ∉ DataProcessor.remove_zero_numeric_fields row
    ∧ ((k, Val.bool true) ∈ row →
        (k, Val.bool true) ∈ DataProcessor.remove_zero_numeric_fields row) := by
  constructor
  · intro hmem
    have := List.of_mem_filter hmem
    simp [DataProcessor.isZeroNumeric] at this
  · intro hmem
    exact List.mem_filter.mpr ⟨hmem, by simp [DataProcessor.isZeroNumeric]⟩

/-- C10 witness: in a concrete record the `False`-valued field is dropped
and the `True`-valued field survives. -/
theorem c10_remove_zero_drops_false_witness :
    ("a", Val.bool false) ∉ DataProcessor.remove_zero_numeric_fields
      [("a", Val.bool false), ("b", Val.bool true)]
    ∧ ("b", Val.bool true) ∈ DataProcessor.remove_zero_numeric_fields
      [("a", Val.bool false), ("b", Val.bool true)] :=
  ⟨(c10_remove_zero_drops_false [("a", Val.bool false), ("b", Val.bool true)] "a").1,
   (c10_remove_zero_drops_false [("a", Val.bool false), ("b", Val.bool true)] "b").2
     (List.mem_cons_of_mem _ (List.mem_cons_self _ _))⟩

theorem filterLoop_eq_filter (ck mk target : String) (rows : List Row) :
    DataProcessor.filterLoop ck mk target rows
    = rows.filter (fun r =>
        decide (strTrim (pyStr (rowGetD r ck (.str ""))) = strTrim target)
        && (pyTruthy (rowGetD r mk (.int 0))
            && match pyFloat (rowGetD r mk (.int 0)) with
               | some q => decide (q ≠ 0)
               | Option.none => true)) := by
  induction rows with
  | nil => rfl
  | cons r rs ih =>
    simp only [DataProcessor.filterLoop, List.filter_cons]
    by_cases hc : strTrim (pyStr (rowGetD r ck (.str ""))) = strTrim target
    · rw [if_pos hc]
      by_cases ht : pyTruthy (rowGetD r mk (.int 0))
      · rw [if_pos ht]
        cases hf : pyFloat (rowGetD r mk (.int 0)) with
        | none => simp [hc, ht, hf, ih]
        | some q =>
          by_cases hq : q = 0
          · simp [hc, ht, hf, hq, ih]
          · simp [hc, ht, hf, hq, ih]
      · rw [if_neg ht]
        simp only [eq_self_iff_true]
        have : (if pyTruthy (rowGetD r mk (.int 0)) then pyFloat (rowGetD r mk (.int 0))
                else some 0) = some 0 := by
          rw [if_neg ht]
        simp [hc, this, ht, ih]
    · rw [if_neg hc]
      simp [hc, ih]

/-- C3 (amended): when both columns are detected, a record is kept iff its
trimmed client value equals the trimmed target AND its metric value is
truthy with a float conversion that either fails or yields a non-zero
number.  Falsy metric values — the empty string, `None`, numeric zero,
`False`, empty containers — are mapped to zero before the test and hence
dropped, not kept. -/
theorem c3_filter_keep_characterization (rows : List Row) (target ck mk : String)
    (h1 : (DataProcessor.findFilterKeys rows).1 = some ck)
    (h2 : (DataProcessor.findFilterKeys rows).2 = some mk)
    (hk1 : ck.isEmpty = false) (hk2 : mk.isEmpty = false) :
    DataProcessor.filter_by_client_and_metric rows target
    = rows.filter (fun r =>
        decide (strTrim (pyStr (rowGetD r ck (.str ""))) = strTrim target)
        && (pyTruthy (rowGetD r mk (.int 0))
            && match pyFloat (rowGetD r mk (.int 0)) with
               | some q => decide (q ≠ 0)
               | Option.none => true)) := by
  cases rows with
  | nil => simp [DataProcessor.findFilterKeys, DataProcessor.findKeysAux] at h1
  | cons r rs =>
    simp only [DataProcessor.filter_by_client_and_metric, List.isEmpty_cons,
      Bool.false_eq_true, if_false, h1, h2, Option.getD_some, DataProcessor.truthyKey,
      hk1, hk2, Bool.not_false, Bool.not_true, Bool.or_self]
    exact filterLoop_eq_filter ck mk target (r :: rs)

/-- C3 counterexample: with a detected client column `client_id` and metric
column `metric_value`, a row whose metric value is the empty string is
dropped (the empty string is falsy, so it is treated as zero), although the
claim says unparseable values including the empty string are kept. -/
theorem c3_empty_metric_dropped :
    DataProcessor.filter_by_client_and_metric
      [[("client_id", Val.str "42"), ("metric_value", Val.str "")]] "42" = [] := rfl

/-- C3 witness: on the specification's own scenario data the amended
characterization applies, detecting the `Client ID` and `Metric value`
columns. -/
theorem c3_filter_keep_witness :
    DataProcessor.filter_by_client_and_metric
      [[("Client ID", Val.str "123"), ("Metric value", Val.str "100")],
       [("Client ID", Val.str "123"), ("Metric value", Val.str "0")],
       [("Client ID", Val.str "456"), ("Metric value", Val.str "200")]] "123"
    = List.filter (fun r =>
        decide (strTrim (pyStr (rowGetD r "Client ID" (.str ""))) = strTrim "123")
        && (pyTruthy (rowGetD r "Metric value" (.int 0))
            && match pyFloat (rowGetD r "Metric value" (.int 0)) with
               | some q => decide (q ≠ 0)
               | Option.none => true))
      [[("Client ID", Val.str "123"), ("Metric value", Val.str "100")],
       [("Client ID", Val.str "123"), ("Metric value", Val.str "0")],
       [("Client ID", Val.str "456"), ("Metric value", Val.str "200")]] :=
  c3_filter_keep_characterization _ "123" "Client ID" "Metric value" rfl rfl rfl rfl

theorem map_fst_zip_sublist {α β : Type} (l1 : List α) (l2 : List β) :
    ((l1.zip l2).map Prod.fst).Sublist l1 := by
  induction l1 generalizing l2 with
  | nil => simp
  | cons a as ih =>
    cases l2 with
    | nil => simp
    | cons b bs => simpa using (ih bs).cons₂ a

theorem foldl_rowInsert_append (ps : List (String × Val)) (acc : Row)
    (hnd : (ps.map Prod.fst).Nodup)
    (hdisj : ∀ p ∈ ps, ∀ q ∈ acc, p.1 ≠ q.1) :
    ps.foldl (fun r hv => rowInsert r hv.1 hv.2) acc = acc ++ ps := by
  induction ps generalizing acc with
  | nil => simp
  | cons p ps ih =>
    have hnotin : acc.any (fun kv => kv.1 == p.1) = false := by
      rw [List.any_eq_false]
      intro q hq
      simpa using (hdisj p (List.mem_cons_self p ps) q hq).symm
    have hstep : rowInsert acc p.1 p.2 = acc ++ [p] := by
      rw [rowInsert, hnotin]
      simp
    have hnd' : (ps.map Prod.fst).Nodup := (List.nodup_cons.mp (by simpa using hnd)).2
    have hhead : p.1 ∉ ps.map Prod.fst := (List.nodup_cons.mp (by simpa using hnd)).1
    have hdisj' : ∀ x ∈ ps, ∀ q ∈ acc ++ [p], x.1 ≠ q.1 := by
      intro x hx q hq
      rcases List.mem_append.mp hq with hq | hq
      · exact hdisj x (List.mem_cons_of_mem _ hx) q hq
      · rcases List.mem_singleton.mp hq with rfl
        intro he
        exact hhead (he ▸ List.mem_map_of_mem Prod.fst hx)
    calc (p :: ps).foldl (fun r hv => rowInsert r hv.1 hv.2) acc
        = ps.foldl (fun r hv => rowInsert r hv.1 hv.2) (acc ++ [p]) := by
          rw [List.foldl_cons, hstep]
      _ = (acc ++ [p]) ++ ps := ih (acc ++ [p]) hnd' hdisj'
      _ = acc ++ p :: ps := by simp

theorem zipRow_eq_zip (headers : List String) (cells : List Val)
    (h : headers.Nodup) :
    MainApp.zipRow headers cells = headers.zip cells := by
  have hnd : ((headers.zip cells).map Prod.fst).Nodup :=
    (map_fst_zip_sublist headers cells).nodup h
  have := foldl_rowInsert_append (headers.zip cells) [] hnd (by simp)
  simpa [MainApp.zipRow] using this

theorem filterMap_zip_rows (headers : List String) (rs : List (List Val))
    (hnd : headers.Nodup) :
    List.filterMap (fun r => match r with
      | Val.list cells => some (MainApp.zipRow headers cells)
      | Val.dict kvs => some kvs
      | _ => Option.none) (rs.map Val.list)
    = rs.map (fun cells => headers.zip cells) := by
  induction rs with
  | nil => rfl
  | cons c cs ih =>
    rw [List.map_cons, List.filterMap_cons]
    dsimp only
    rw [zipRow_eq_zip _ _ hnd, ih, List.map_cons]

/-- C4 (amended): for a mapping with a `headers` sequence and a `rows`
sequence of positional value sequences (and no list-of-mappings `data`
entry), the normalizer of `main.py` zips each row against the stringified
headers: values beyond the header length are dropped, shorter rows give
partial mappings, and no row is discarded for a length mismatch.  The
`DataProcessor` normalizer, by contrast, discards every list row whose
length differs from the header count (see the counterexample). -/
theorem c4_main_normalize_zips (d : Row) (headersRaw : List Val)
    (rawRows : List (List Val))
    (hdata : ∀ ds, rowGet d "data" = some (.list ds) →
      DataProcessor.allDicts ds = false)
    (hh : rowGet d "headers" = some (.list headersRaw))
    (hr : rowGet d "rows" = some (.list (rawRows.map Val.list)))
    (hnd : (headersRaw.map pyStr).Nodup) :
    MainApp.normalize_rows (.dict d)
    = rawRows.map (fun cells => (headersRaw.map pyStr).zip cells) := by
  have hdb : (match rowGet d "data" with
      | some (.list ds) =>
        if DataProcessor.allDicts ds then some (DataProcessor.toRows ds) else Option.none
      | _ => Option.none) = (Option.none : Option (List Row)) := by
    cases hd : rowGet d "data" with
    | none => rfl
    | some v =>
      cases v with
      | list ds => simp [hdata ds hd]
      | none => rfl
      | bool b => rfl
      | int n => rfl
      | float q => rfl
      | str s => rfl
      | dict kvs => rfl
  simp only [MainApp.normalize_rows, hdb, hh, hr]
  exact filterMap_zip_rows (headersRaw.map pyStr) rawRows hnd

/-- C4 counterexample: the `DataProcessor` normalizer, given headers
`["a","b"]` and rows `[[1,2],[3]]`, silently discards the short row `[3]`
instead of producing the partial mapping the claim promises. -/
theorem c4_dp_short_row_discarded :
    DataProcessor.normalize_rows (.dict [("headers", .list [.str "a", .str "b"]),
      ("rows", .list [.list [.int 1, .int 2], .list [.int 3]])])
    = [[("a", .int 1), ("b", .int 2)]] := rfl

/-- C4 witness: the specification's scenario input normalizes to the two
zipped mappings. -/
theorem c4_main_normalize_witness :
    MainApp.normalize_rows (.dict [("headers", .list [.str "a", .str "b"]),
      ("rows", .list [.list [.int 1, .int 2], .list [.int 3, .int 4]])])
    = [[("a", .int 1), ("b", .int 2)], [("a", .int 3), ("b", .int 4)]] :=
  (c4_main_normalize_zips
    [("headers", .list [.str "a", .str "b"]),
     ("rows", .list [.list [.int 1, .int 2], .list [.int 3, .int 4]])]
    [.str "a", .str "b"] [[.int 1, .int 2], [.int 3, .int 4]]
    (fun ds h => by simp [rowGet] at h) rfl rfl (by decide)).trans rfl

/-- C6 (amended): `get_features_for_product` returns a non-empty id
sequence whenever either some feature's effective product name matches the
upper-cased request with an int-typed id, or — for the fallback — at least
one of the first 10 features has a truthy id.  Without the latter condition
the fallback can be empty (see the counterexample). -/
theorem c6_features_nonempty (productName : String)
    (features : List GcoreClient.FeatureRec)
    (h : (∃ f ∈ features, GcoreClient.effProductName f = strUpper productName
            ∧ GcoreClient.pyIsInt f.id = true)
       ∨ (∃ f ∈ features.take 10, GcoreClient.truthyId f.id = true)) :
    GcoreClient.get_features_for_product productName features ≠ [] := by
  unfold GcoreClient.get_features_for_product
  set ids := features.filterMap (fun f =>
    if GcoreClient.effProductName f = strUpper productName
        && GcoreClient.pyIsInt f.id then f.id else Option.none) with hids
  by_cases he : ids.isEmpty
  · rw [if_pos he]
    have hfall : ∃ f ∈ features.take 10, GcoreClient.truthyId f.id = true := by
      cases h with
      | inr h => exact h
      | inl h =>
        exfalso
        obtain ⟨f, hf, hname, hint⟩ := h
        have hnil : ids = [] := List.isEmpty_iff.mp he
        have := List.filterMap_eq_nil_iff.mp (hids ▸ hnil) f hf
        rw [hname, hint] at this
        simp only [decide_eq_true_eq, Bool.and_true, decide_True, if_true] at this
        cases hid : f.id with
        | none => rw [hid] at hint; simp [GcoreClient.pyIsInt] at hint
        | some v => rw [hid] at this; exact Option.noConfusion this
    intro hnil
    obtain ⟨f, hf, htr⟩ := hfall
    have := List.filterMap_eq_nil_iff.mp hnil f hf
    rw [htr] at this
    simp only [if_true] at this
    cases hid : f.id with
    | none => rw [hid] at htr; simp [GcoreClient.truthyId] at htr
    | some v => rw [hid] at this; exact Option.noConfusion this
  · rw [if_neg he]
    intro hnil
    exact he (by rw [hids, hnil]; rfl)

/-- C6 counterexample: a non-empty feature list with no name match and no
id on its only feature yields an empty id sequence, contradicting the
claimed non-emptiness for every non-empty feature list. -/
theorem c6_fallback_empty :
    GcoreClient.get_features_for_product "Y"
      [⟨⟨some "X", Option.none, Option.none⟩, Option.none⟩] = []
    ∧ ([⟨⟨some "X", Option.none, Option.none⟩, Option.none⟩]
        : List GcoreClient.FeatureRec) ≠ [] :=
  ⟨rfl, by simp⟩

/-- C6 witness: a feature matching `CDN` case-insensitively (with
surrounding whitespace stripped) yields a non-empty id list. -/
theorem c6_features_nonempty_witness :
    GcoreClient.get_features_for_product "cdn"
      [⟨⟨some "CDN ", Option.none, Option.none⟩, some (.int 5)⟩] ≠ [] :=
  c6_features_nonempty "cdn" [⟨⟨some "CDN ", Option.none, Option.none⟩, some (.int 5)⟩]
    (Or.inl ⟨_, List.mem_cons_self _ _, by decide, by decide⟩)

/-- C2 counterexample: a refresh whose auth response reports
`expires_in = 30` returns a token cached with `expires_at = now + 30`,
which is within the 60-second safety margin — the returned credential does
not satisfy `expires_at > now + 60`. -/
theorem c2_fresh_token_within_margin :
    Auth.get_token 1800 ⟨Option.none, 0⟩ 1000 true
      ⟨some "tok", Option.none, some 30⟩ = .ok ("tok", ⟨some "tok", 1030⟩)
    ∧ ¬((1030 : Rat) > 1000 + 60) := by
  constructor
  · unfold Auth.get_token
    norm_num [Auth.truthyTok, Auth.get_token.pyOrTok, Auth.get_token.pyNonEmpty]
    rfl
  · norm_num

/-- C2 (amended): whenever the upstream-reported token lifetime (defaulting
to the configured cache duration) exceeds 60 seconds, every successfully
acquired credential — cached or freshly refreshed — has
`expires_at > now + 60` at the moment it is returned. -/
theorem c2_token_margin (cacheDuration : Rat) (st : Auth.TokenCache) (now : Rat)
    (credsOk : Bool) (resp : Auth.AuthResp) (tok : String) (st' : Auth.TokenCache)
    (hexp : resp.expires_in.getD cacheDuration > 60)
    (h : Auth.get_token cacheDuration st now credsOk resp = .ok (tok, st')) :
    st'.expires_at > now + 60 := by
  unfold Auth.get_token at h
  by_cases hc : (Auth.truthyTok st.token && decide (st.expires_at > now + 60)) = true
  · rw [if_pos hc] at h
    obtain ⟨-, h2⟩ := Bool.and_eq_true_iff.mp hc
    obtain ⟨-, rfl⟩ := Prod.mk.injEq .. ▸ Except.ok.injEq .. ▸ h
    exact of_decide_eq_true h2
  · rw [if_neg hc] at h
    by_cases hcr : credsOk
    · rw [hcr] at h
      simp only [Bool.not_true, Bool.false_eq_true, if_false] at h
      cases hp : Auth.get_token.pyOrTok resp.access resp.access_token with
      | none => rw [hp] at h; exact absurd h (by simp)
      | some t =>
        rw [hp] at h
        simp only [Except.ok.injEq, Prod.mk.injEq] at h
        obtain ⟨-, rfl⟩ := h
        have : now + 60 < now + resp.expires_in.getD cacheDuration :=
          add_lt_add_left hexp now
        exact this
    · rw [Bool.not_eq_true] at hcr
      rw [hcr] at h
      exact absurd h (by simp)

/-- C2 witness: with the default 1800-second lifetime a fresh token is
returned with a comfortable margin. -/
theorem c2_token_margin_witness :
    ((⟨some "t", 1800⟩ : Auth.TokenCache).expires_at > (0 : Rat) + 60) :=
  c2_token_margin 1800 ⟨Option.none, 0⟩ 0 true ⟨some "t", Option.none, Option.none⟩
    "t" ⟨some "t", 1800⟩ (by norm_num)
    (by unfold Auth.get_token
        norm_num [Auth.truthyTok, Auth.get_token.pyOrTok, Auth.get_token.pyNonEmpty]
        rfl)

/-- C5 (amended): the `main.py` poller maps the status case-insensitively —
any of the eight success synonyms returns normally, `failed`/`error` raises
the 502 failure, and anything else is non-terminal: the iteration proceeds
to the deadline check and then keeps polling.  (The `GcoreClient` poller
recognizes only `completed` and `failed`; see the counterexample.) -/
theorem c5_status_mapping (s : String) (t : Rat) (rest : List (String × Rat))
    (timeout : Rat) (last : String) :
    (strLower s ∈ MainApp.successStatuses →
      MainApp.waitUntilReadyRun timeout last ((s, t) :: rest)
        = some (.completed (strLower s)))
    ∧ (strLower s ∈ MainApp.failureStatuses →
      MainApp.waitUntilReadyRun timeout last ((s, t) :: rest)
        = some (.reportFailed 502))
    ∧ (strLower s ∉ MainApp.successStatuses → strLower s ∉ MainApp.failureStatuses →
      MainApp.waitUntilReadyRun timeout last ((s, t) :: rest)
        = if t ≥ timeout then
            some (.timedOut 504 (if (strLower s).isEmpty then last else strLower s))
          else MainApp.waitUntilReadyRun timeout
            (if (strLower s).isEmpty then last else strLower s) rest) := by
  refine ⟨fun hs => ?_, fun hf => ?_, fun hns hnf => ?_⟩
  · have hcl : MainApp.classifyStatus s = .completed := by
      simp [MainApp.classifyStatus, hs]
    simp [MainApp.waitUntilReadyRun, hcl]
  · have hns : strLower s ∉ MainApp.successStatuses := by
      simp only [MainApp.failureStatuses, List.mem_cons, List.not_mem_nil,
        or_false, List.mem_singleton] at hf
      rcases hf with hf | hf <;> rw [hf] <;> decide
    have hcl : MainApp.classifyStatus s = .failed := by
      simp [MainApp.classifyStatus, hns, hf]
    simp [MainApp.waitUntilReadyRun, hcl]
  · have hcl : MainApp.classifyStatus s = .nonTerminal := by
      simp [MainApp.classifyStatus, hns, hnf]
    simp [MainApp.waitUntilReadyRun, hcl]

/-- C5 counterexample: the `GcoreClient` poller does not treat `ready` as a
success synonym — after observing `ready` it is still polling (no normal
return), contradicting the claimed synonym set for the job poller. -/
theorem c5_gcore_ready_not_terminal :
    GcoreClient.waitForCompletionRun 600 [("ready", 0)] = Option.none := rfl

/-- C5 witness: the three classes at concrete statuses, exercising case
folding. -/
theorem c5_status_mapping_witness :
    MainApp.waitUntilReadyRun 600 "unknown" [("Ready", 0)]
      = some (.completed "ready")
    ∧ MainApp.waitUntilReadyRun 600 "unknown" [("ERROR", 0)]
      = some (.reportFailed 502)
    ∧ MainApp.waitUntilReadyRun 600 "unknown" [("Mystery", 700)]
      = some (.timedOut 504 "mystery") := by
  refine ⟨(c5_status_mapping "Ready" 0 [] 600 "unknown").1 (by decide),
    ((c5_status_mapping "ERROR" 0 [] 600 "unknown").2).1 (by decide),
    (((c5_status_mapping "Mystery" 700 [] 600 "unknown").2).2 (by decide) (by decide)).trans
      (by decide)⟩

/-- C1 (amended): for the `main.py` poller, on any finite status trace that
never reaches a terminal state (including unrecognized statuses) the run
fails with the gateway-timeout error (HTTP 504) carrying a last-observed
status as soon as some poll's elapsed time reaches the timeout; the carried
status is the initial marker or one of the observed lowered statuses.  (The
`GcoreClient` poller checks its timeout only while the status is
`inprogress` or `pending`, so a trace of unrecognized statuses never times
out; see the counterexample.) -/
theorem c1_timeout_on_nonterminal (timeout : Rat) (trace : List (String × Rat))
    (last : String)
    (hnt : ∀ p ∈ trace, MainApp.classifyStatus p.1 = .nonTerminal)
    (hto : ∃ p ∈ trace, p.2 ≥ timeout) :
    ∃ l, MainApp.waitUntilReadyRun timeout last trace = some (.timedOut 504 l)
      ∧ (l = last ∨ ∃ p ∈ trace, l = strLower p.1) := by
  induction trace generalizing last with
  | nil => obtain ⟨p, hp, -⟩ := hto; exact absurd hp (List.not_mem_nil p)
  | cons pt rest ih =>
    obtain ⟨s, t⟩ := pt
    have hs := hnt (s, t) (List.mem_cons_self _ _)
    have hrun : MainApp.waitUntilReadyRun timeout last ((s, t) :: rest)
        = if t ≥ timeout then
            some (.timedOut 504 (if (strLower s).isEmpty then last else strLower s))
          else MainApp.waitUntilReadyRun timeout
            (if (strLower s).isEmpty then last else strLower s) rest := by
      simp [MainApp.waitUntilReadyRun, hs]
    by_cases ht : t ≥ timeout
    · refine ⟨if (strLower s).isEmpty then last else strLower s, ?_, ?_⟩
      · rw [hrun, if_pos ht]
      · by_cases he : (strLower s).isEmpty
        · rw [if_pos he]; exact Or.inl rfl
        · rw [if_neg he]
          exact Or.inr ⟨(s, t), List.mem_cons_self _ _, rfl⟩
    · have hto' : ∃ p ∈ rest, p.2 ≥ timeout := by
        obtain ⟨p, hp, hpt⟩ := hto
        rcases List.mem_cons.mp hp with rfl | hp
        · exact absurd hpt ht
        · exact ⟨p, hp, hpt⟩
      have hnt' : ∀ p ∈ rest, MainApp.classifyStatus p.1 = .nonTerminal :=
        fun p hp => hnt p (List.mem_cons_of_mem _ hp)
      obtain ⟨l, hl1, hl2⟩ := ih (if (strLower s).isEmpty then last else strLower s)
        hnt' hto'
      refine ⟨l, by rw [hrun, if_neg ht]; exact hl1, ?_⟩
      rcases hl2 with hl2 | ⟨p, hp, rfl⟩
      · by_cases he : (strLower s).isEmpty
        · rw [if_pos he] at hl2; exact Or.inl hl2
        · rw [if_neg he] at hl2
          exact Or.inr ⟨(s, t), List.mem_cons_self _ _, hl2⟩
      · exact Or.inr ⟨p, List.mem_cons_of_mem _ hp, rfl⟩

/-- C1 counterexample: the `GcoreClient` poller, fed only the unrecognized
status `mystery`, is still polling after elapsed times 700 and 1400 seconds
against a 600-second timeout — it never fails with the timeout error,
because the timeout check is skipped for statuses outside
`inprogress`/`pending`. -/
theorem c1_gcore_no_timeout_on_unknown :
    GcoreClient.waitForCompletionRun 600
      [("mystery", 0), ("mystery", 700), ("mystery", 1400)] = Option.none := rfl

/-- C1 witness: a pending-then-unrecognized trace crossing the deadline
times out with 504 and carries the last observed status. -/
theorem c1_timeout_witness :
    ∃ l, MainApp.waitUntilReadyRun 600 "unknown" [("pending", 0), ("Weird", 650)]
        = some (.timedOut 504 l)
      ∧ (l = "unknown" ∨ ∃ p ∈ [("pending", (0 : Rat)), ("Weird", 650)],
          l = strLower p.1) :=
  c1_timeout_on_nonterminal 600 [("pending", 0), ("Weird", 650)] "unknown"
    (by decide) (by decide)

theorem charsLtB_iff (as bs : List Char) :
    charsLtB as bs = true ↔ List.Lex (· < ·) as bs := by
  induction as generalizing bs with
  | nil =>
    cases bs with
    | nil =>
      simp only [charsLtB, Bool.false_eq_true, false_iff]
      exact fun h => by cases h
    | cons b bs => simp only [charsLtB, true_iff]; exact List.Lex.nil
  | cons a as ih =>
    cases bs with
    | nil =>
      simp only [charsLtB, Bool.false_eq_true, false_iff]
      exact fun h => by cases h
    | cons b bs =>
      by_cases hab : a < b
      · simp only [charsLtB, if_pos hab, true_iff]
        exact List.Lex.rel hab
      · by_cases heq : a = b
        · subst heq
          rw [show charsLtB (a :: as) (a :: bs) = charsLtB as bs from by
            simp [charsLtB, hab]]
          rw [ih bs]
          exact (List.Lex.cons_iff (r := (· < ·))).symm
        · simp only [charsLtB, if_neg hab, if_neg heq, Bool.false_eq_true, false_iff]
          intro h
          cases h with
          | cons h => exact heq rfl
          | rel h => exact hab h

theorem strLtB_iff (a b : String) : strLtB a b = true ↔ a < b := by
  rw [String.lt_iff_toList_lt]
  exact charsLtB_iff a.data b.data

theorem strLeB_iff (a b : String) : strLeB a b = true ↔ a ≤ b := by
  rw [strLeB, Bool.not_eq_true', ← not_lt]
  constructor
  · intro h hlt
    exact absurd ((strLtB_iff b a).mpr hlt) (by rw [h]; exact Bool.false_ne_true)
  · intro h
    cases hb : strLtB b a
    · rfl
    · exact absurd ((strLtB_iff b a).mp hb) h

theorem perm_insertSorted (a : String) (l : List String) :
    (insertSorted a l).Perm (a :: l) := by
  induction l with
  | nil => exact List.Perm.refl _
  | cons b bs ih =>
    rw [insertSorted]
    by_cases h : strLeB a b = true
    · rw [if_pos h]
    · rw [if_neg h]
      exact (ih.cons b).trans (List.Perm.swap a b bs)

theorem perm_sortStrings (l : List String) : (sortStrings l).Perm l := by
  induction l with
  | nil => exact List.Perm.refl _
  | cons a as ih =>
    rw [sortStrings]
    exact (perm_insertSorted a (sortStrings as)).trans (ih.cons a)

theorem mem_insertSorted (x a : String) (l : List String) :
    x ∈ insertSorted a l ↔ x = a ∨ x ∈ l := by
  rw [(perm_insertSorted a l).mem_iff, List.mem_cons]

theorem sorted_insertSorted (a : String) (l : List String)
    (h : l.Sorted (· ≤ ·)) : (insertSorted a l).Sorted (· ≤ ·) := by
  induction l with
  | nil => simp [insertSorted]
  | cons b bs ih =>
    obtain ⟨hb, hbs⟩ := List.sorted_cons.mp h
    rw [insertSorted]
    by_cases hab : strLeB a b = true
    · rw [if_pos hab]
      have ha : a ≤ b := (strLeB_iff a b).mp hab
      exact List.sorted_cons.mpr
        ⟨fun c hc => (List.mem_cons.mp hc).elim (fun he => he ▸ ha)
          (fun hc => le_trans ha (hb c hc)), h⟩
    · rw [if_neg hab]
      have hba : b ≤ a := by
        have := (not_iff_not.mpr (strLeB_iff a b)).mp (by simpa using hab)
        exact le_of_lt (lt_of_not_le this)
      refine List.sorted_cons.mpr ⟨?_, ih hbs⟩
      intro c hc
      rcases (mem_insertSorted c a bs).mp hc with rfl | hc
      · exact hba
      · exact hb c hc

theorem sorted_sortStrings (l : List String) : (sortStrings l).Sorted (· ≤ ·) := by
  induction l with
  | nil => simp [sortStrings]
  | cons a as ih => exact sorted_insertSorted a (sortStrings as) ih

theorem csvFieldnames_nodup (rows : List Row) :
    (DataProcessor.csvFieldnames rows).Nodup :=
  (perm_sortStrings _).nodup_iff.mpr (List.nodup_dedup _)

theorem csvFieldnames_sorted (rows : List Row) :
    (DataProcessor.csvFieldnames rows).Sorted (· < ·) :=
  (sorted_sortStrings _).lt_of_le (csvFieldnames_nodup rows)

theorem csvFieldnames_mem (rows : List Row) (f : String) :
    f ∈ DataProcessor.csvFieldnames rows ↔ ∃ r ∈ rows, f ∈ rowKeys r := by
  rw [DataProcessor.csvFieldnames, (perm_sortStrings _).mem_iff, List.mem_dedup,
    List.mem_flatMap]

/-- C7: `to_csv` returns the empty string on an empty record sequence (no
header-only output); on a non-empty sequence (whose field names need no
CSV quoting) the output starts with a header line that is exactly the
comma-joined field-name list, that list is strictly sorted
lexicographically and contains a name iff some record carries it, and a
record's missing field renders as the empty cell. -/
theorem c7_to_csv_spec :
    DataProcessor.to_csv [] = ""
    ∧ ∀ rows : List Row, rows ≠ [] →
        (∀ f ∈ DataProcessor.csvFieldnames rows, DataProcessor.csvNeedsQuote f = false) →
        (∃ rest, DataProcessor.to_csv rows
            = String.intercalate "," (DataProcessor.csvFieldnames rows) ++ "\r\n" ++ rest)
        ∧ (DataProcessor.csvFieldnames rows).Sorted (· < ·)
        ∧ (∀ f, f ∈ DataProcessor.csvFieldnames rows ↔ ∃ r ∈ rows, f ∈ rowKeys r)
        ∧ (∀ r f, rowGet r f = Option.none → DataProcessor.csvCell r f = "") := by
  refine ⟨rfl, fun rows hne hq => ⟨?_, csvFieldnames_sorted rows,
    csvFieldnames_mem rows, fun r f hf => by rw [DataProcessor.csvCell, hf]⟩⟩
  have hempty : rows.isEmpty = false := by
    cases rows with
    | nil => exact absurd rfl hne
    | cons r rs => rfl
  have hquote : (DataProcessor.csvFieldnames rows).map DataProcessor.csvQuoteField
      = DataProcessor.csvFieldnames rows := by
    rw [show DataProcessor.csvFieldnames rows
        = (DataProcessor.csvFieldnames rows).map id from (List.map_id _).symm]
    simp only [List.map_map]
    exact List.map_congr_left fun f hf => by
      simp only [Function.comp_apply, id_eq, DataProcessor.csvQuoteField,
        hq f (by simpa using hf), Bool.false_eq_true, if_false]
  refine ⟨String.join (rows.map (fun r => DataProcessor.csvLine
    ((DataProcessor.csvFieldnames rows).map (DataProcessor.csvCell r)))), ?_⟩
  rw [DataProcessor.to_csv, hempty]
  simp only [Bool.false_eq_true, if_false, DataProcessor.csvLine, hquote,
    String.append_assoc]

/-- C7 witness: two records with disjoint field sets produce a header over
the sorted key union, and the empty-sequence clause holds. -/
theorem c7_to_csv_spec_witness :
    DataProcessor.to_csv [] = ""
    ∧ ((∃ rest, DataProcessor.to_csv [[("b", Val.int 1)], [("a", Val.str "x")]]
          = String.intercalate ","
              (DataProcessor.csvFieldnames [[("b", Val.int 1)], [("a", Val.str "x")]])
            ++ "\r\n" ++ rest)
      ∧ (DataProcessor.csvFieldnames
          [[("b", Val.int 1)], [("a", Val.str "x")]]).Sorted (· < ·)
      ∧ (∀ f, f ∈ DataProcessor.csvFieldnames [[("b", Val.int 1)], [("a", Val.str "x")]]
          ↔ ∃ r ∈ [[("b", Val.int 1)], [("a", Val.str "x")]], f ∈ rowKeys r)
      ∧ (∀ r f, rowGet r f = Option.none → DataProcessor.csvCell r f = "")) :=
  ⟨c7_to_csv_spec.1,
   c7_to_csv_spec.2 [[("b", Val.int 1)], [("a", Val.str "x")]]
     (by simp) (by decide)⟩
